import Mathlib

/-
  Verification of the real-time room/game orchestration engine of the
  simon-game-app repository (WebSocket game handler, src/unnamed/part_000).

  The engine is embedded shallowly: every inbound event handler and every
  timer callback of the source file becomes a pure function on an explicit
  `EngineState`.  JavaScript timers are modelled by a list of live timers
  carrying the data each closure captures; firing a timer removes it from
  the live list and runs the corresponding callback.  Socket.io emissions
  are modelled by an append-only message log.

  The external collaborators (gameService, colorRaceLogic, simonLogic) are
  not part of the given sources; their definitions below are modelled from
  the spec and are marked as such in their doc comments.
-/

namespace SimonApp

-- ===========================================================================
-- DATA MODEL (shared/types, as used by src/unnamed/part_000)
-- ===========================================================================

inductive Color
  | red | green | blue | yellow
deriving DecidableEq

inductive RoomStatus
  | waiting | countdown | active | finished
deriving DecidableEq

structure Player where
  id : String
  displayName : String
  isHost : Bool
  connected : Bool
  socketId : Option String
deriving DecidableEq

structure PlayerAnswer where
  playerId : String
  color : Color
  timestamp : Nat
deriving DecidableEq

inductive ColorRacePhase
  | in_round | finished
deriving DecidableEq

structure ColorRaceGameState where
  round : Nat
  totalRounds : Nat
  currentColor : Color
  scores : List (String × Nat)
  roundWinner : Option String
  phase : ColorRacePhase
deriving DecidableEq

inductive SimonPlayerStatus
  | playing | eliminated | winner
deriving DecidableEq

structure SimonPlayerState where
  status : SimonPlayerStatus
  currentInputIndex : Nat
deriving DecidableEq

structure SimonGameState where
  round : Nat
  sequence : List Color
  playerStates : List (String × SimonPlayerState)
deriving DecidableEq

inductive GameState
  | color_race (s : ColorRaceGameState)
  | simon (s : SimonGameState)
deriving DecidableEq

structure Room where
  code : String
  status : RoomStatus
  players : List Player
  gameState : Option GameState
deriving DecidableEq

-- ===========================================================================
-- ASSOCIATION-LIST MAPS (the JS Map objects of the handler file)
-- ===========================================================================

/-- Lookup in an association list, the model of JS `Map.get`. -/
def alGet {κ ν : Type} [BEq κ] (m : List (κ × ν)) (k : κ) : Option ν :=
  (m.find? (fun x => x.1 == k)).map (fun x => x.2)

/-- Lookup with a default, the model of `Map.get(k) || d`. -/
def alGetD {κ ν : Type} [BEq κ] (m : List (κ × ν)) (k : κ) (d : ν) : ν :=
  (alGet m k).getD d

/-- Insert or replace, the model of JS `Map.set`. -/
def alSet {κ ν : Type} [BEq κ] : List (κ × ν) → κ → ν → List (κ × ν)
  | [], k, v => [(k, v)]
  | x :: rest, k, v => if x.1 == k then (k, v) :: rest else x :: alSet rest k v

/-- Remove a key, the model of JS `Map.delete`. -/
def alDelete {κ ν : Type} [BEq κ] (m : List (κ × ν)) (k : κ) : List (κ × ν) :=
  m.filter (fun x => x.1 != k)

/-- Update the value stored under a key, leaving other keys unchanged. -/
def alAdjust {κ ν : Type} [BEq κ] (m : List (κ × ν)) (k : κ) (f : ν → ν) : List (κ × ν) :=
  m.map (fun kv => if kv.1 == k then (kv.1, f kv.2) else kv)

-- ===========================================================================
-- EXTERNAL REGISTRY (gameService) — spec-modelled
-- ===========================================================================

/-- Modelled from the spec: the external registry operation `gameService.getRoom`
(get room by code, §6); the gameService source is not under src. -/
def getRoom (rooms : List Room) (code : String) : Option Room :=
  rooms.find? (fun r => r.code == code)

/-- Modelled from the spec: helper for registry mutations — apply a
code-preserving update to the room with the given code. -/
def updateRoom (rooms : List Room) (code : String) (f : Room → Room) : List Room :=
  rooms.map (fun r => if r.code == code then f r else r)

/-- Modelled from the spec: `gameService.updateSocketId` — the Session Binder
"update the room's connection reference for that player, mark connected"
(§4.1); the gameService source is not under src. -/
def updateSocketId (rooms : List Room) (code playerId socketId : String) : List Room :=
  updateRoom rooms code (fun r =>
    { r with players := r.players.map (fun p =>
        if p.id == playerId then { p with socketId := some socketId, connected := true } else p) })

/-- Modelled from the spec: `gameService.markPlayerDisconnected` — "mark the
player disconnected in the registry" (§4.2); the gameService source is not
under src. -/
def markPlayerDisconnected (rooms : List Room) (code playerId : String) : List Room :=
  updateRoom rooms code (fun r =>
    { r with players := r.players.map (fun p =>
        if p.id == playerId then { p with connected := false } else p) })

/-- Modelled from the spec: `gameService.updateRoomStatus` (§6); the
gameService source is not under src. -/
def updateRoomStatus (rooms : List Room) (code : String) (st : RoomStatus) : List Room :=
  updateRoom rooms code (fun r => { r with status := st })

/-- Modelled from the spec: `gameService.updateGameState` (§6); the
gameService source is not under src. -/
def updateGameState (rooms : List Room) (code : String) (gs : GameState) : List Room :=
  updateRoom rooms code (fun r => { r with gameState := some gs })

/-- Modelled from the spec: `gameService.removePlayer` — "membership changes
(add/remove) are always registry operations" (§3); a room left empty is
dropped, matching the handler that observes the room as absent afterwards
(§4.2 "if the room becomes empty/absent as a result").  Returns whether a
player was removed together with the new registry.  The gameService source
is not under src. -/
def removePlayer (rooms : List Room) (code playerId : String) : Bool × List Room :=
  match getRoom rooms code with
  | none => (false, rooms)
  | some r =>
    if r.players.any (fun p => p.id == playerId) then
      let remaining := r.players.filter (fun p => p.id != playerId)
      if remaining.isEmpty then
        (true, rooms.filter (fun q => q.code != code))
      else
        (true, updateRoom rooms code (fun q => { q with players := remaining }))
    else (false, rooms)

/-- Modelled from the spec: `gameService.removeIfStillDisconnected` — "if
still not rebound, remove the player from the registry" (§4.2): the player
is removed only when still marked disconnected.  The gameService source is
not under src. -/
def removeIfStillDisconnected (rooms : List Room) (code playerId : String) : Bool × List Room :=
  match getRoom rooms code with
  | none => (false, rooms)
  | some r =>
    match r.players.find? (fun p => p.id == playerId) with
    | none => (false, rooms)
    | some p =>
      if p.connected then (false, rooms)
      else removePlayer rooms code playerId

-- ===========================================================================
-- EXTERNAL GAME LOGIC (colorRaceLogic, simonLogic) — spec-modelled
-- ===========================================================================

/-- Modelled from the spec: deterministic stand-in for the external sequence
generator ("generated color sequence for the round", §3); the simonLogic
source is not under src. -/
def genColor (n : Nat) : Color :=
  match n % 4 with
  | 0 => .red
  | 1 => .green
  | 2 => .blue
  | _ => .yellow

/-- Modelled from the spec: a generated sequence of the given length. -/
def genSeq (n : Nat) : List Color :=
  (List.range n).map genColor

/-- Modelled from the spec: `initializeColorRaceGame` — the external
initialize-state function of the race variant (§4.3, §6); the
colorRaceLogic source is not under src. -/
def initializeColorRaceGame (players : List Player) : ColorRaceGameState :=
  { round := 1, totalRounds := 5, currentColor := .red,
    scores := players.map (fun p => (p.id, 0)), roundWinner := none, phase := .in_round }

/-- Modelled from the spec: `processRound` — the external round-resolution
function of the race variant, invoked "with the full Answer list";
"authoritative ordering for tie-break lives in the external round-resolution
function" (§4.4).  The winner is the first recorded answer matching the
target color; the colorRaceLogic source is not under src. -/
def processRound (gs : ColorRaceGameState) (answers : List PlayerAnswer) : ColorRaceGameState :=
  let winner := ((answers.filter (fun a => a.color == gs.currentColor)).head?).map
    (fun a => a.playerId)
  let scores := match winner with
    | some w => alSet gs.scores w (alGetD gs.scores w 0 + 1)
    | none => gs.scores
  let nextRound := gs.round + 1
  { gs with
    round := nextRound,
    scores := scores,
    roundWinner := winner,
    currentColor := genColor nextRound,
    phase := if nextRound > gs.totalRounds then .finished else .in_round }

/-- Modelled from the spec: `determineWinner` — the external
winner-determination function of the race variant (§4.4): the highest final
score; the colorRaceLogic source is not under src. -/
def determineWinner (gs : ColorRaceGameState) : Option String :=
  (gs.scores.foldl
    (fun acc kv =>
      match acc with
      | none => some kv
      | some best => if kv.2 > best.2 then some kv else acc)
    none).map (fun kv => kv.1)

/-- Modelled from the spec: `initializeSimonGame` — the external
initialize-state function of the sequence variant: round 1, a generated
sequence, every player `playing` with progress pointer 0 (§3, §4.3); the
simonLogic source is not under src. -/
def initializeSimonGame (players : List Player) : SimonGameState :=
  { round := 1, sequence := genSeq 1,
    playerStates := players.map (fun p => (p.id, ⟨.playing, 0⟩)) }

/-- Modelled from the spec: `validateSequence` — "the external
sequence-equality function" (§4.5): the submission equals the generated
sequence; the simonLogic source is not under src. -/
def validateSequence (gs : SimonGameState) (submitted : List Color) : Bool :=
  submitted == gs.sequence

/-- Modelled from the spec: `validateInput` — "an external single-step
validator keyed to the player's current progress pointer" (§4.5): the
submitted color matches the sequence element at the player's progress
pointer; a pointer outside the sequence matches nothing and is judged
incorrect.  The simonLogic source is not under src. -/
def validateInput (gs : SimonGameState) (playerId : String) (color : Color)
    (_inputIndex : Nat) : Bool :=
  match alGet gs.playerStates playerId with
  | none => false
  | some ps => gs.sequence.get? ps.currentInputIndex == some color

/-- Modelled from the spec: `eliminatePlayer` — the external elimination
function (§4.5); the simonLogic source is not under src. -/
def eliminatePlayer (gs : SimonGameState) (playerId : String) (_round : Nat) : SimonGameState :=
  { gs with playerStates :=
      alAdjust gs.playerStates playerId (fun st => { st with status := .eliminated }) }

/-- Modelled from the spec: `updatePlayerProgress` — "advance the player's
progress pointer via the external progress-update function" (§4.5); the
simonLogic source is not under src. -/
def updatePlayerProgress (gs : SimonGameState) (playerId : String) : SimonGameState :=
  { gs with playerStates :=
      alAdjust gs.playerStates playerId (fun st =>
        { st with currentInputIndex := st.currentInputIndex + 1 }) }

/-- Modelled from the spec: `advanceToNextRound` — the external transition to
the next round with "a freshly generated, longer sequence" (§4.5); progress
pointers restart at 0; the simonLogic source is not under src. -/
def advanceToNextRound (gs : SimonGameState) : SimonGameState :=
  { round := gs.round + 1,
    sequence := genSeq (gs.round + 1),
    playerStates := gs.playerStates.map (fun kv => (kv.1, { kv.2 with currentInputIndex := 0 })) }

/-- Modelled from the spec: `shouldGameEnd` — "the external predicate whether
the game should end (policy: e.g., fewer than the minimum number of
non-eliminated players remain)" (§4.5), with the minimum taken as 2; the
simonLogic source is not under src. -/
def shouldGameEnd (gs : SimonGameState) : Bool :=
  (gs.playerStates.filter (fun kv => kv.2.status == .playing)).length < 2

/-- Modelled from the spec: `getWinner` — the external winner determination
of the sequence variant (§4.5): the first player still `playing`; the
simonLogic source is not under src. -/
def getWinner (gs : SimonGameState) : Option String :=
  (gs.playerStates.find? (fun kv => kv.2.status == .playing)).map (fun kv => kv.1)

-- ===========================================================================
-- ENGINE STATE: messages, timers, sockets
-- ===========================================================================

/-- The target of a Socket.io emission: `socket.emit` (the triggering
connection only), `io.to(gameCode).emit` (every subscriber of the room), or
`socket.to(gameCode).emit` (every subscriber except the sender). -/
inductive Dest
  | socket (socketId : String)
  | room (gameCode : String)
  | others (gameCode : String) (senderSocketId : String)
deriving DecidableEq

/-- The payloads the handler file emits. -/
inductive Ev
  | room_state (r : Room)
  | room_state_update (r : Room)
  | room_closed
  | player_joined (p : Player)
  | player_left (playerId : String)
  | player_disconnected (playerId : String) (displayName : Option String)
  | player_reconnected (playerId displayName : String)
  | errorNotice (message : String)
  | countdown (count : Nat)
  | color_race_new_round (round : Nat) (color : Color) (totalRounds : Nat)
  | color_race_round_result (winnerId : Option String) (winnerName : Option String)
      (scores : List (String × Nat))
  | color_race_game_finished (winnerId winnerName : String) (finalScores : List (String × Nat))
  | simon_show_sequence (round : Nat) (sequence : List Color)
  | simon_sequence_complete
  | simon_input_phase (round : Nat)
  | simon_result (playerId playerName : String) (isCorrect : Bool) (correctSequence : List Color)
  | simon_player_eliminated (playerId playerName reason : String)
  | simon_input_correct (playerId : String) (index : Nat)
  | simon_game_finished (winnerId winnerName : String) (finalRound : Nat)
deriving DecidableEq

structure Msg where
  dest : Dest
  ev : Ev
deriving DecidableEq

/-- Every `setTimeout`/`setInterval` callback of the handler file, carrying
exactly the data its JS closure captures at schedule time. -/
inductive TimerKind
  | buffer (gameCode playerId : String) (displayName : Option String)
  | removal (gameCode playerId : String) (displayName : Option String)
  | countdownTick (gameCode : String) (count : Nat)
  | simonShowStart (gameCode : String) (captured : SimonGameState)
  | simonSeqComplete (gameCode : String) (captured : SimonGameState)
  | simonInputPhaseOpen (gameCode : String) (round : Nat)
  | simonAdvance (gameCode : String)
  | simonEliminateFinish (gameCode playerId : String) (capturedState : SimonGameState)
      (capturedRoom : Room)
  | colorNextRound (gameCode : String) (captured : ColorRaceGameState)
deriving DecidableEq

/-- A socket together with the session fields the handler file stores on it. -/
structure SocketWithSession where
  sid : String
  playerId : Option String
  gameCode : Option String
  displayName : Option String
deriving DecidableEq

/-- The engine state: the externally owned registry, the two engine-local
caches (`roundAnswers` and `disconnectTimeouts`), the live JS timers, the
log of emitted messages, a fresh-timer-id counter and the current clock. -/
structure EngineState where
  rooms : List Room
  roundAnswers : List (String × List PlayerAnswer)
  disconnectTimeouts : List ((String × String) × Nat)
  liveTimers : List (Nat × TimerKind)
  msgs : List Msg
  nextTimerId : Nat
  now : Nat
deriving DecidableEq

/-- Append an emission to the log. -/
def emit (s : EngineState) (d : Dest) (e : Ev) : EngineState :=
  { s with msgs := s.msgs ++ [⟨d, e⟩] }

/-- Model of `setTimeout` (and of arming one `setInterval` step): registers a
live timer under a fresh id and returns that id. -/
def setTimeout (s : EngineState) (k : TimerKind) : EngineState × Nat :=
  ({ s with liveTimers := s.liveTimers ++ [(s.nextTimerId, k)],
            nextTimerId := s.nextTimerId + 1 }, s.nextTimerId)

/-- Model of `clearTimeout`: the timer is no longer live and will never fire. -/
def clearTimeout (s : EngineState) (tid : Nat) : EngineState :=
  { s with liveTimers := s.liveTimers.filter (fun x => x.1 != tid) }

/-- The live timers whose key is the given (gameCode, playerId) pair:
the buffer and removal timers of the Disconnect Grace Manager. -/
def timerKey : TimerKind → Option (String × String)
  | .buffer g p _ => some (g, p)
  | .removal g p _ => some (g, p)
  | _ => none

def liveTimersForKey (s : EngineState) (key : String × String) : List (Nat × TimerKind) :=
  s.liveTimers.filter (fun x => timerKey x.2 == some key)

-- ===========================================================================
-- HANDLERS (faithful embeddings of src/unnamed/part_000)
-- ===========================================================================

/-- `handleAutoReconnect` (part_000 lines 81-135), with cookie parsing and
token verification abstracted into an optional verified payload: when the
payload is absent the function returns unchanged, exactly as the early
returns of the source do. -/
def handleAutoReconnect (s : EngineState) (socket : SocketWithSession)
    (payload : Option (String × String × String)) : EngineState × SocketWithSession :=
  match payload with
  | none => (s, socket)
  | some (playerId, gameCode, displayName) =>
    match getRoom s.rooms gameCode with
    | none => (s, socket)
    | some room =>
      if room.players.any (fun p => p.id == playerId) then
        let s := { s with rooms := updateSocketId s.rooms gameCode playerId socket.sid }
        let socket := { socket with playerId := some playerId, gameCode := some gameCode,
                                    displayName := some displayName }
        let timeoutKey := (gameCode, playerId)
        let s := match alGet s.disconnectTimeouts timeoutKey with
          | some existingTimeout =>
            let s := clearTimeout s existingTimeout
            { s with disconnectTimeouts := alDelete s.disconnectTimeouts timeoutKey }
          | none => s
        let s := emit s (.others gameCode socket.sid) (.player_reconnected playerId displayName)
        -- the registry hands out the live room object, so the pushed snapshot
        -- reflects the connection update made just above
        let s := match getRoom s.rooms gameCode with
          | some r => emit s (.socket socket.sid) (.room_state r)
          | none => s
        (s, socket)
      else (s, socket)

/-- The `join_room_socket` handler (part_000 lines 149-192). -/
def joinRoomSocket (s : EngineState) (socket : SocketWithSession)
    (gameCode playerId : String) : EngineState × SocketWithSession :=
  match getRoom s.rooms gameCode with
  | none => (emit s (.socket socket.sid) (.errorNotice "Room not found"), socket)
  | some room =>
    if room.players.any (fun p => p.id == playerId) then
      let s := { s with rooms := updateSocketId s.rooms gameCode playerId socket.sid }
      -- the registry hands out the live room object, so the emitted snapshots
      -- and the joined player reflect the connection update made just above
      match getRoom s.rooms gameCode with
      | none => (s, socket)
      | some room1 =>
        match room1.players.find? (fun p => p.id == playerId) with
        | none => (s, socket)
        | some player =>
          let socket := { socket with playerId := some playerId, gameCode := some gameCode,
                                      displayName := some player.displayName }
          let s := emit s (.socket socket.sid) (.room_state room1)
          let s := emit s (.room gameCode) (.room_state_update room1)
          let s := emit s (.others gameCode socket.sid) (.player_joined player)
          (s, socket)
    else (emit s (.socket socket.sid) (.errorNotice "Player not in room"), socket)

/-- The `leave_room` handler (part_000 lines 197-230): the session fields are
cleared unconditionally, after the removal attempt. -/
def leaveRoom (s : EngineState) (socket : SocketWithSession)
    (gameCode playerId : String) : EngineState × SocketWithSession :=
  let (removed, rooms1) := removePlayer s.rooms gameCode playerId
  let s := { s with rooms := rooms1 }
  let s :=
    if removed then
      let s := emit s (.room gameCode) (.player_left playerId)
      match getRoom s.rooms gameCode with
      | some room => emit s (.room gameCode) (.room_state_update room)
      | none => emit s (.room gameCode) .room_closed
    else s
  (s, { socket with playerId := none, gameCode := none, displayName := none })

/-- `startCountdown` (part_000 lines 487-537): set status to countdown and
arm the first interval step with count 3. -/
def startCountdown (s : EngineState) (gameCode : String) : EngineState :=
  let s := { s with rooms := updateRoomStatus s.rooms gameCode .countdown }
  (setTimeout s (.countdownTick gameCode 3)).1

/-- The `start_game` handler (part_000 lines 235-267). -/
def startGame (s : EngineState) (socket : SocketWithSession)
    (gameCode playerId : String) : EngineState :=
  match getRoom s.rooms gameCode with
  | none => emit s (.socket socket.sid) (.errorNotice "Room not found")
  | some room =>
    match room.players.find? (fun p => p.id == playerId) with
    | some player =>
      if player.isHost then
        if room.status == .waiting then startCountdown s gameCode
        else emit s (.socket socket.sid) (.errorNotice "Game already started")
      else emit s (.socket socket.sid) (.errorNotice "Only host can start the game")
    | none => emit s (.socket socket.sid) (.errorNotice "Only host can start the game")

/-- `processColorRaceRound` (part_000 lines 546-595).  The finished branch
builds its payload from `winner!.winnerId` and `winnerPlayer!.displayName`
(lines 574-576): the non-null assertions are erased at runtime, so when the
determined winner is absent, or no longer among the room's players,
evaluating the payload throws a TypeError before anything is emitted.
The throw is modelled as `.error`, carrying the state reached up to the
throw point (the game-state update and the round-result broadcast have
already happened); `.ok` is normal completion. -/
def processColorRaceRound (s : EngineState) (gameCode : String) (room : Room)
    (gameState : ColorRaceGameState) (answers : List PlayerAnswer) :
    Except EngineState EngineState :=
  let newState := processRound gameState answers
  let s := { s with rooms := updateGameState s.rooms gameCode (.color_race newState) }
  let roundWinner := newState.roundWinner.bind
    (fun w => room.players.find? (fun p => p.id == w))
  let s := emit s (.room gameCode)
    (.color_race_round_result newState.roundWinner (roundWinner.map (fun p => p.displayName))
      newState.scores)
  if newState.phase == .finished then
    match determineWinner newState with
    | none => .error s
    | some w =>
      match room.players.find? (fun p => p.id == w) with
      | none => .error s
      | some winnerPlayer =>
        let s := emit s (.room gameCode)
          (.color_race_game_finished w winnerPlayer.displayName newState.scores)
        .ok { s with rooms := updateRoomStatus s.rooms gameCode .finished }
  else
    .ok (setTimeout s (.colorNextRound gameCode newState)).1

/-- The `color_race:submit_answer` handler (part_000 lines 284-329). -/
def colorRaceSubmitAnswer (s : EngineState) (gameCode playerId : String)
    (color : Color) : EngineState :=
  match getRoom s.rooms gameCode with
  | none => s
  | some room =>
    if room.status == .active then
      match room.gameState with
      | some (.color_race gameState) =>
        let answers := alGetD s.roundAnswers gameCode []
        if answers.any (fun a => a.playerId == playerId) then s
        else
          let answers := answers ++ [⟨playerId, color, s.now⟩]
          let s := { s with roundAnswers := alSet s.roundAnswers gameCode answers }
          let connectedPlayers := room.players.filter (fun p => p.connected)
          if answers.length ≥ connectedPlayers.length then
            -- the catch of the handler (part_000 lines 326-328) swallows a
            -- throw from processColorRaceRound, skipping the reset at 324
            match processColorRaceRound s gameCode room gameState answers with
            | .ok s => { s with roundAnswers := alSet s.roundAnswers gameCode [] }
            | .error s => s
          else s
      | _ => s
    else s

/-- `showSimonSequence` (part_000 lines 604-632): emit the sequence and arm
the pacing timer; the nested timeouts become the `simonSeqComplete` and
`simonInputPhaseOpen` timers, each capturing the schedule-time state. -/
def showSimonSequence (s : EngineState) (gameCode : String)
    (gameState : SimonGameState) : EngineState :=
  let s := emit s (.room gameCode) (.simon_show_sequence gameState.round gameState.sequence)
  (setTimeout s (.simonSeqComplete gameCode gameState)).1

/-- `finishSimonGame` (part_000 lines 657-669). -/
def finishSimonGame (s : EngineState) (gameCode : String) (gameState : SimonGameState)
    (room : Room) : EngineState :=
  let winnerId := getWinner gameState
  let winner := winnerId.bind (fun w => room.players.find? (fun p => p.id == w))
  let s := emit s (.room gameCode)
    (.simon_game_finished (winnerId.getD "")
      ((winner.map (fun p => p.displayName)).getD "No winner") gameState.round)
  { s with rooms := updateRoomStatus s.rooms gameCode .finished }

/-- `advanceSimonRound` (part_000 lines 637-652): re-fetches the room and
re-validates existence, status and game variant before acting. -/
def advanceSimonRound (s : EngineState) (gameCode : String) : EngineState :=
  match getRoom s.rooms gameCode with
  | none => s
  | some room =>
    if room.status == .active then
      match room.gameState with
      | some (.simon gameState) =>
        let newState := advanceToNextRound gameState
        let s := { s with rooms := updateGameState s.rooms gameCode (.simon newState) }
        showSimonSequence s gameCode newState
      | _ => s
    else s

/-- The `simon:submit_sequence` handler (part_000 lines 334-392): note that
both delayed branches capture state at submission time, and that the
incorrect branch ends the game without consulting `shouldGameEnd`. -/
def simonSubmitSequence (s : EngineState) (gameCode playerId : String)
    (sequence : List Color) : EngineState :=
  match getRoom s.rooms gameCode with
  | none => s
  | some room =>
    if room.status == .active then
      match room.gameState with
      | some (.simon gameState) =>
        match alGet gameState.playerStates playerId with
        | some playerState =>
          if playerState.status == .playing then
            let player := room.players.find? (fun p => p.id == playerId)
            let isCorrect := validateSequence gameState sequence
            let s := emit s (.room gameCode)
              (.simon_result playerId ((player.map (fun p => p.displayName)).getD "Unknown")
                isCorrect gameState.sequence)
            if isCorrect then
              (setTimeout s (.simonAdvance gameCode)).1
            else
              (setTimeout s (.simonEliminateFinish gameCode playerId gameState room)).1
          else s
        | none => s
      | _ => s
    else s

/-- The `simon:submit_input` handler (part_000 lines 398-477). -/
def simonSubmitInput (s : EngineState) (gameCode playerId : String) (color : Color)
    (inputIndex : Nat) : EngineState :=
  match getRoom s.rooms gameCode with
  | none => s
  | some room =>
    if room.status == .active then
      match room.gameState with
      | some (.simon gameState) =>
        match alGet gameState.playerStates playerId with
        | some playerState =>
          if playerState.status == .playing then
            let isCorrect := validateInput gameState playerId color inputIndex
            if !isCorrect then
              let newState := eliminatePlayer gameState playerId gameState.round
              let s := { s with rooms := updateGameState s.rooms gameCode (.simon newState) }
              let player := room.players.find? (fun p => p.id == playerId)
              let s := emit s (.room gameCode)
                (.simon_player_eliminated playerId
                  ((player.map (fun p => p.displayName)).getD "Unknown") "wrong_color")
              if shouldGameEnd newState then finishSimonGame s gameCode newState room
              else s
            else
              let newState := updatePlayerProgress gameState playerId
              let s := { s with rooms := updateGameState s.rooms gameCode (.simon newState) }
              let s := emit s (.room gameCode) (.simon_input_correct playerId inputIndex)
              match alGet newState.playerStates playerId with
              | some updatedPlayerState =>
                if updatedPlayerState.currentInputIndex ≥ newState.sequence.length then
                  let allComplete := newState.playerStates.all (fun kv =>
                    kv.2.status != .playing ||
                      decide (kv.2.currentInputIndex ≥ newState.sequence.length))
                  if allComplete then (setTimeout s (.simonAdvance gameCode)).1
                  else s
                else s
              | none => s
          else s
        | none => s
      | _ => s
    else s

/-- `handleDisconnect` (part_000 lines 678-728): a socket without a bound
session is ignored; otherwise a buffer timer is armed and stored under the
key — the map entry is overwritten, the source never clears a prior timer
here. -/
def handleDisconnect (s : EngineState) (socket : SocketWithSession) : EngineState :=
  match socket.playerId, socket.gameCode with
  | some playerId, some gameCode =>
    let (s, tid) := setTimeout s (.buffer gameCode playerId socket.displayName)
    { s with disconnectTimeouts := alSet s.disconnectTimeouts (gameCode, playerId) tid }
  | _, _ => s

-- ===========================================================================
-- TIMER CALLBACKS AND FIRING
-- ===========================================================================

/-- The callback bodies of every timer, dispatched on the captured data. -/
def runTimerKind (s : EngineState) : TimerKind → EngineState
  | .buffer gameCode playerId displayName =>
    -- part_000 lines 691-725: mark disconnected, notify, arm the removal
    -- timer and store it under the key
    let s := { s with rooms := markPlayerDisconnected s.rooms gameCode playerId }
    let s := emit s (.room gameCode) (.player_disconnected playerId displayName)
    let (s, tid) := setTimeout s (.removal gameCode playerId displayName)
    { s with disconnectTimeouts := alSet s.disconnectTimeouts (gameCode, playerId) tid }
  | .removal gameCode playerId _ =>
    -- part_000 lines 704-722
    let (removed, rooms1) := removeIfStillDisconnected s.rooms gameCode playerId
    let s := { s with rooms := rooms1 }
    let s :=
      if removed then
        let s := emit s (.room gameCode) (.player_left playerId)
        match getRoom s.rooms gameCode with
        | some room => emit s (.room gameCode) (.room_state_update room)
        | none => emit s (.room gameCode) .room_closed
      else s
    { s with disconnectTimeouts := alDelete s.disconnectTimeouts (gameCode, playerId) }
  | .countdownTick gameCode count =>
    -- part_000 lines 492-536: emit the tick; at zero, activate and
    -- initialize the (fixed) simon variant; otherwise arm the next tick
    let s := emit s (.room gameCode) (.countdown count)
    if count == 0 then
      let s := { s with rooms := updateRoomStatus s.rooms gameCode .active }
      match getRoom s.rooms gameCode with
      | none => s
      | some room =>
        let gameState := initializeSimonGame room.players
        let s := { s with rooms := updateGameState s.rooms gameCode (.simon gameState) }
        (setTimeout s (.simonShowStart gameCode gameState)).1
    else
      (setTimeout s (.countdownTick gameCode (count - 1))).1
  | .simonShowStart gameCode captured =>
    -- part_000 lines 516-518: runs showSimonSequence on the captured state
    showSimonSequence s gameCode captured
  | .simonSeqComplete gameCode captured =>
    -- part_000 lines 620-631, outer timeout
    let s := emit s (.room gameCode) .simon_sequence_complete
    (setTimeout s (.simonInputPhaseOpen gameCode captured.round)).1
  | .simonInputPhaseOpen gameCode round =>
    -- part_000 lines 624-630, inner timeout
    emit s (.room gameCode) (.simon_input_phase round)
  | .simonAdvance gameCode =>
    -- part_000 lines 374-376 and 469-471
    advanceSimonRound s gameCode
  | .simonEliminateFinish gameCode playerId capturedState capturedRoom =>
    -- part_000 lines 381-387: acts on the state and room captured at
    -- submission time, with no re-fetch and no shouldGameEnd check
    let newState := eliminatePlayer capturedState playerId capturedState.round
    let s := { s with rooms := updateGameState s.rooms gameCode (.simon newState) }
    finishSimonGame s gameCode newState capturedRoom
  | .colorNextRound gameCode captured =>
    -- part_000 lines 584-593: re-fetches and re-checks existence and status
    match getRoom s.rooms gameCode with
    | some currentRoom =>
      if currentRoom.status == .active then
        emit s (.room gameCode)
          (.color_race_new_round captured.round captured.currentColor captured.totalRounds)
      else s
    | none => s

/-- Fire a timer: only a live timer can fire; it is removed from the live
list before its callback runs. -/
def fireTimer (s : EngineState) (tid : Nat) : EngineState :=
  match s.liveTimers.find? (fun x => x.1 == tid) with
  | none => s
  | some (_, k) =>
    runTimerKind { s with liveTimers := s.liveTimers.filter (fun x => x.1 != tid) } k

-- ===========================================================================
-- OBSERVATION HELPERS
-- ===========================================================================

/-- The current sequence-game state stored for a room, when there is one. -/
def simonStateOf (s : EngineState) (g : String) : Option SimonGameState :=
  match (getRoom s.rooms g).bind (fun r => r.gameState) with
  | some (.simon gs) => some gs
  | _ => none

/-- Whether a logged message is the "input phase open" broadcast. -/
def isInputPhaseMsg (m : Msg) : Bool :=
  match m.ev with
  | .simon_input_phase _ => true
  | _ => false

/-- The status of a room as currently registered. -/
def roomStatusOf (s : EngineState) (g : String) : Option RoomStatus :=
  (getRoom s.rooms g).map (fun r => r.status)

-- ===========================================================================
-- CONCRETE FIXTURES (used by witnesses and counterexamples)
-- ===========================================================================

def pA : Player := ⟨"A", "Alice", true, true, some "x1"⟩
def pB : Player := ⟨"B", "Bob", false, true, some "x2"⟩
def pC : Player := ⟨"C", "Carol", false, true, some "x3"⟩

/-- A fresh engine holding the given registry. -/
def mkEngine (rooms : List Room) : EngineState :=
  ⟨rooms, [], [], [], [], 0, 100⟩

def waitingRoom : Room := ⟨"G", .waiting, [pA, pB], none⟩

def sockA : SocketWithSession := ⟨"x1", some "A", some "G", some "Alice"⟩
def sockB : SocketWithSession := ⟨"x2", some "B", some "G", some "Bob"⟩
def sockFresh : SocketWithSession := ⟨"x9", none, none, none⟩

-- Grace-manager trace: A's socket drops, A rebinds with an explicit join on a
-- fresh connection, and that connection later drops too.
def grace0 : EngineState := mkEngine [waitingRoom]
def grace1 : EngineState := handleDisconnect grace0 sockA
def graceJoin : EngineState × SocketWithSession := joinRoomSocket grace1 sockFresh "G" "A"
def grace2 : EngineState := graceJoin.1
def sockA9 : SocketWithSession := graceJoin.2
def grace3 : EngineState := handleDisconnect grace2 sockA9
-- Alternative continuation: after the explicit rejoin, the uncancelled buffer
-- timer (id 0) fires, then the removal timer it armed (id 1) fires.
def grace4 : EngineState := fireTimer grace2 0
def grace5 : EngineState := fireTimer grace4 1

-- Countdown trace: the host starts the game and the four interval steps run.
def cdown0 : EngineState := startGame (mkEngine [waitingRoom]) sockA "G" "A"
def cdown1 : EngineState := fireTimer cdown0 0
def cdown2 : EngineState := fireTimer cdown1 1
def cdown3 : EngineState := fireTimer cdown2 2
def cdown4 : EngineState := fireTimer cdown3 3
-- A whole-sequence submission arriving before any input-phase broadcast.
def cdown5 : EngineState := simonSubmitSequence cdown4 "G" "A" (genSeq 1)

-- Race-game fixture: an active two-player race room with one recorded answer.
def raceGS : ColorRaceGameState :=
  ⟨1, 5, .red, [("A", 0), ("B", 0)], none, .in_round⟩
def raceRoom : Room := ⟨"G", .active, [pA, pB], some (.color_race raceGS)⟩
def race0 : EngineState :=
  { mkEngine [raceRoom] with roundAnswers := [("G", [⟨"A", .red, 50⟩])] }

-- Race-game throw trace: the score leader A leaves mid-game (their score
-- stays in the game state), then B's answer completes the final round; the
-- winner determination names the departed A, the finished-branch payload
-- throws, and the handler's catch skips the answer-list reset.
def race1GS : ColorRaceGameState :=
  ⟨1, 1, .red, [("A", 5), ("B", 0)], none, .in_round⟩
def race1Room : Room := ⟨"G", .active, [pA, pB], some (.color_race race1GS)⟩
def raceThrow0 : EngineState := mkEngine [race1Room]
def raceThrow1 : EngineState := (leaveRoom raceThrow0 sockA "G" "A").1
def raceThrow2 : EngineState := colorRaceSubmitAnswer raceThrow1 "G" "B" .red

-- Sequence-game fixture, three playing players (whole-sequence mode).
def simonGS3 : SimonGameState :=
  ⟨1, genSeq 1, [("A", ⟨.playing, 0⟩), ("B", ⟨.playing, 0⟩), ("C", ⟨.playing, 0⟩)]⟩
def simonRoom3 : Room := ⟨"G", .active, [pA, pB, pC], some (.simon simonGS3)⟩
def whole0 : EngineState := mkEngine [simonRoom3]
def whole1 : EngineState := simonSubmitSequence whole0 "G" "A" [Color.blue]
def whole2 : EngineState := fireTimer whole1 0

-- Sequence-game fixture, two playing players (per-step mode, round 2).
def simonGS2 : SimonGameState :=
  ⟨2, genSeq 2, [("A", ⟨.playing, 0⟩), ("B", ⟨.playing, 0⟩)]⟩
def simonRoom2 : Room := ⟨"G", .active, [pA, pB], some (.simon simonGS2)⟩
def step0 : EngineState := mkEngine [simonRoom2]
def step1 : EngineState := simonSubmitInput step0 "G" "A" .red 0
def step2 : EngineState := simonSubmitInput step1 "G" "A" .green 1
def step3 : EngineState := simonSubmitInput step2 "G" "A" .blue 2

-- Stale-timer trace: a wrong whole-sequence submission schedules the delayed
-- eliminate-and-finish callback, then both players leave and the room is gone
-- before the callback fires.
def simonGS2r1 : SimonGameState :=
  ⟨1, genSeq 1, [("A", ⟨.playing, 0⟩), ("B", ⟨.playing, 0⟩)]⟩
def staleRoom : Room := ⟨"G", .active, [pA, pB], some (.simon simonGS2r1)⟩
def stale0 : EngineState := mkEngine [staleRoom]
def stale1 : EngineState := simonSubmitSequence stale0 "G" "A" [Color.green]
def stale2 : EngineState := (leaveRoom stale1 sockA "G" "A").1
def stale3 : EngineState := (leaveRoom stale2 sockB "G" "B").1
def stale4 : EngineState := fireTimer stale3 0

-- ===========================================================================
-- HELPER LEMMAS
-- ===========================================================================

theorem alGet_alSet_self {κ ν : Type} [BEq κ] [LawfulBEq κ] (m : List (κ × ν)) (k : κ) (v : ν) :
    alGet (alSet m k v) k = some v := by
  induction m with
  | nil => simp [alSet, alGet]
  | cons x rest ih =>
    by_cases h : (x.1 == k) = true
    · simp [alSet, alGet, h, List.find?]
    · simp only [alSet, h, if_false, Bool.false_eq_true, ite_false]
      simpa [alGet, List.find?, h] using ih

theorem alGet_alDelete_self {κ ν : Type} [BEq κ] (m : List (κ × ν)) (k : κ) :
    alGet (alDelete m k) k = none := by
  have : (alDelete m k).find? (fun x => x.1 == k) = none := by
    rw [List.find?_eq_none]
    intro x hx
    have hmem := List.mem_filter.mp hx
    simpa [bne] using hmem.2
  simp [alGet, this]

theorem alGet_alAdjust_self {κ ν : Type} [BEq κ] [LawfulBEq κ]
    (m : List (κ × ν)) (k : κ) (f : ν → ν) :
    alGet (alAdjust m k f) k = (alGet m k).map f := by
  induction m with
  | nil => simp [alAdjust, alGet]
  | cons x rest ih =>
    by_cases h : (x.1 == k) = true
    · simp [alAdjust, alGet, h, List.find?]
    · have hx : alAdjust (x :: rest) k f = x :: alAdjust rest k f := by
        simp [alAdjust, h]
      rw [hx]
      simpa [alGet, List.find?, h] using ih

theorem fireTimer_not_live (s : EngineState) (tid : Nat)
    (h : s.liveTimers.all (fun x => x.1 != tid) = true) : fireTimer s tid = s := by
  have hnone : s.liveTimers.find? (fun x => x.1 == tid) = none := by
    rw [List.find?_eq_none]
    intro x hx
    have := List.all_eq_true.mp h x hx
    simpa using this
  simp [fireTimer, hnone]

theorem all_filter_self {α : Type} (l : List α) (q : α → Bool) :
    (l.filter q).all q = true := by
  rw [List.all_eq_true]
  intro x hx
  exact (List.mem_filter.mp hx).2

theorem getRoom_updateRoom (rooms : List Room) (c : String) (f : Room → Room)
    (hf : ∀ r, (f r).code = r.code) :
    getRoom (updateRoom rooms c f) c = (getRoom rooms c).map f := by
  induction rooms with
  | nil => rfl
  | cons r rest ih =>
    by_cases h : (r.code == c) = true
    · simp [getRoom, updateRoom, List.find?, h, hf r]
    · simp only [updateRoom, List.map_cons, h, Bool.false_eq_true, ite_false]
      simpa [getRoom, updateRoom, List.find?, h] using ih

theorem getRoom_updateRoomStatus (rooms : List Room) (c : String) (st : RoomStatus) :
    getRoom (updateRoomStatus rooms c st) c =
      (getRoom rooms c).map (fun r => { r with status := st }) :=
  getRoom_updateRoom rooms c _ (fun _ => rfl)

theorem getRoom_updateGameState (rooms : List Room) (c : String) (gs : GameState) :
    getRoom (updateGameState rooms c gs) c =
      (getRoom rooms c).map (fun r => { r with gameState := some gs }) :=
  getRoom_updateRoom rooms c _ (fun _ => rfl)

theorem removePlayer_not_removed (rooms : List Room) (g p : String)
    (h : (removePlayer rooms g p).1 = false) : (removePlayer rooms g p).2 = rooms := by
  unfold removePlayer at h ⊢
  cases hr : getRoom rooms g with
  | none => simp [hr]
  | some r =>
    by_cases ha : (r.players.any (fun q => q.id == p)) = true
    · rw [hr] at h
      simp only [ha, if_true] at h
      by_cases he : (r.players.filter (fun q => q.id != p)).isEmpty = true <;>
        simp [he] at h
    · simp [hr, ha]

theorem processColorRaceRound_ok_roundAnswers (s : EngineState) (g : String) (room : Room)
    (gs : ColorRaceGameState) (ans : List PlayerAnswer) (s2 : EngineState)
    (h : processColorRaceRound s g room gs ans = .ok s2) :
    s2.roundAnswers = s.roundAnswers := by
  simp only [processColorRaceRound, emit, setTimeout] at h
  split at h
  · split at h
    · exact absurd h (by simp)
    · split at h
      · exact absurd h (by simp)
      · simp only [Except.ok.injEq] at h
        subst h
        rfl
  · simp only [Except.ok.injEq] at h
    subst h
    rfl

theorem processColorRaceRound_error_roundAnswers (s : EngineState) (g : String) (room : Room)
    (gs : ColorRaceGameState) (ans : List PlayerAnswer) (s2 : EngineState)
    (h : processColorRaceRound s g room gs ans = .error s2) :
    s2.roundAnswers = s.roundAnswers := by
  simp only [processColorRaceRound, emit, setTimeout] at h
  split at h
  · split at h
    · simp only [Except.error.injEq] at h
      subst h
      rfl
    · split at h
      · simp only [Except.error.injEq] at h
        subst h
        rfl
      · exact absurd h (by simp)
  · exact absurd h (by simp)

-- ===========================================================================
-- CLAIM THEOREMS
-- ===========================================================================

/-- C9: a disconnect of a connection that has no bound session (no playerId
or no gameCode stored on the socket) is a complete no-op — it creates no
grace-timer entry, performs no registry mutation, and emits no broadcast. -/
theorem disconnect_without_session_noop (s : EngineState) (sock : SocketWithSession)
    (h : sock.playerId = none ∨ sock.gameCode = none) :
    handleDisconnect s sock = s := by
  obtain ⟨sid, pid, gc, dn⟩ := sock
  rcases h with h | h
  · simp only at h
    subst h
    cases gc <;> rfl
  · simp only at h
    subst h
    cases pid <;> rfl

theorem disconnect_without_session_noop_witness :
    handleDisconnect race0 sockFresh = race0 :=
  disconnect_without_session_noop race0 sockFresh (Or.inl rfl)

/-- C10: the leave-room handler always clears the socket session binding
(playerId, gameCode, displayName become undefined) regardless of removal
success; when the removal fails the state is entirely unchanged (in
particular nothing is broadcast); and a later disconnect of that socket is a
no-op, so no grace timer is started for the former (room, player) key. -/
theorem leave_room_clears_session (s : EngineState) (sock : SocketWithSession)
    (g p : String) :
    (leaveRoom s sock g p).2.playerId = none
    ∧ (leaveRoom s sock g p).2.gameCode = none
    ∧ (leaveRoom s sock g p).2.displayName = none
    ∧ ((removePlayer s.rooms g p).1 = false → (leaveRoom s sock g p).1 = s)
    ∧ (∀ s2 : EngineState, handleDisconnect s2 (leaveRoom s sock g p).2 = s2) := by
  refine ⟨rfl, rfl, rfl, ?_, fun s2 => rfl⟩
  intro h
  have h2 := removePlayer_not_removed s.rooms g p h
  simp [leaveRoom, h, h2]

theorem leave_room_clears_session_witness :
    (leaveRoom race0 sockA "G" "Z").1 = race0
    ∧ (leaveRoom race0 sockA "G" "Z").2.playerId = none :=
  ⟨(leave_room_clears_session race0 sockA "G" "Z").2.2.2.1 (by decide),
   (leave_room_clears_session race0 sockA "G" "Z").1⟩

/-- C1 is false as stated: the score leader A leaves mid-game, B's answer
completes the final round, so resolution is invoked (the round-result
broadcast appears), but the finished-branch payload throws — the determined
winner A is no longer among the room's players — and the handler's catch
swallows the throw: the answer list is NOT reset (B's answer is still
recorded), no game-finished event is broadcast, and the status stays
active. -/
theorem race_finish_throw_skips_reset :
    Msg.mk (.room "G")
        (.color_race_round_result (some "B") (some "Bob") [("A", 5), ("B", 1)])
      ∈ raceThrow2.msgs
    ∧ alGetD raceThrow2.roundAnswers "G" [] = [⟨"B", .red, 100⟩]
    ∧ roomStatusOf raceThrow2 "G" = some .active
    ∧ (raceThrow2.msgs.all (fun m => match m.ev with
        | .color_race_game_finished _ _ _ => false
        | _ => true)) = true := by decide

/-- C1 (amended): race game — for a room in active status with a color-race
game state, a duplicate submission is a complete no-op; otherwise the answer
is recorded with a server timestamp and round resolution is invoked exactly
when the recorded count reaches the count of currently-connected players at
the moment the answer arrives; on a resolution that completes normally the
answer list is reset to empty, but when the resolution's finished branch
throws (determined winner absent or no longer among the room's players) the
handler's catch skips the reset and the recorded answers remain; if the
count is not reached, the handler only records the answer. -/
theorem color_race_submit_resolution
    (s : EngineState) (g p : String) (c : Color) (room : Room) (gs : ColorRaceGameState)
    (hroom : getRoom s.rooms g = some room)
    (hact : room.status = .active)
    (hgs : room.gameState = some (.color_race gs)) :
    let answers0 := alGetD s.roundAnswers g []
    let answers1 := answers0 ++ [⟨p, c, s.now⟩]
    let recorded := { s with roundAnswers := alSet s.roundAnswers g answers1 }
    (answers0.any (fun a => a.playerId == p) = true → colorRaceSubmitAnswer s g p c = s)
    ∧ (answers0.any (fun a => a.playerId == p) = false →
        (answers1.length ≥ (room.players.filter (fun q => q.connected)).length →
          match processColorRaceRound recorded g room gs answers1 with
          | .ok s2 =>
              colorRaceSubmitAnswer s g p c =
                { s2 with roundAnswers := alSet s2.roundAnswers g [] }
              ∧ alGetD (colorRaceSubmitAnswer s g p c).roundAnswers g [] = []
          | .error s2 =>
              colorRaceSubmitAnswer s g p c = s2
              ∧ alGetD (colorRaceSubmitAnswer s g p c).roundAnswers g [] = answers1)
        ∧ (¬ answers1.length ≥ (room.players.filter (fun q => q.connected)).length →
            colorRaceSubmitAnswer s g p c = recorded)) := by
  intro answers0 answers1 recorded
  constructor
  · intro hdup
    simp only [colorRaceSubmitAnswer, hroom, hact, hgs, beq_self_eq_true, if_true, hdup]
  · intro hdup
    have hdup' : ¬((alGetD s.roundAnswers g []).any (fun a => a.playerId == p) = true) := by
      simp only [answers0] at hdup
      simp [hdup]
    constructor
    · intro hlen
      have hlen' : (alGetD s.roundAnswers g [] ++ [⟨p, c, s.now⟩] : List PlayerAnswer).length ≥
          (room.players.filter (fun q => q.connected)).length := hlen
      cases hres : processColorRaceRound recorded g room gs answers1 with
      | ok s2 =>
        refine ⟨?_, ?_⟩
        · simp only [colorRaceSubmitAnswer, hroom, hact, hgs, beq_self_eq_true, if_true]
          rw [if_neg hdup', if_pos hlen']
          simp only [recorded, answers1, answers0] at hres
          rw [hres]
        · simp only [colorRaceSubmitAnswer, hroom, hact, hgs, beq_self_eq_true, if_true]
          rw [if_neg hdup', if_pos hlen']
          simp only [recorded, answers1, answers0] at hres
          rw [hres]
          simp [alGetD, alGet_alSet_self]
      | error s2 =>
        refine ⟨?_, ?_⟩
        · simp only [colorRaceSubmitAnswer, hroom, hact, hgs, beq_self_eq_true, if_true]
          rw [if_neg hdup', if_pos hlen']
          simp only [recorded, answers1, answers0] at hres
          rw [hres]
        · simp only [colorRaceSubmitAnswer, hroom, hact, hgs, beq_self_eq_true, if_true]
          rw [if_neg hdup', if_pos hlen']
          simp only [recorded, answers1, answers0] at hres
          rw [hres]
          have hra := processColorRaceRound_error_roundAnswers recorded g room gs
            answers1 s2 hres
          simp only [recorded] at hra
          rw [hra]
          simp [alGetD, alGet_alSet_self]
    · intro hlen
      have hlen' : ¬((alGetD s.roundAnswers g [] ++ [⟨p, c, s.now⟩] : List PlayerAnswer).length ≥
          (room.players.filter (fun q => q.connected)).length) := hlen
      simp only [colorRaceSubmitAnswer, hroom, hact, hgs, beq_self_eq_true, if_true]
      rw [if_neg hdup', if_neg hlen']

theorem color_race_submit_resolution_witness :
    alGetD (colorRaceSubmitAnswer race0 "G" "B" Color.red).roundAnswers "G" [] = []
    ∧ alGetD (colorRaceSubmitAnswer raceThrow1 "G" "B" Color.red).roundAnswers "G" []
        = [⟨"B", .red, 100⟩] := by
  have h := color_race_submit_resolution race0 "G" "B" Color.red raceRoom raceGS
    (by decide) (by decide) (by decide)
  have hok := (h.2 (by decide)).1 (by decide)
  have h2 := color_race_submit_resolution raceThrow1 "G" "B" Color.red
    ⟨"G", .active, [pB], some (.color_race race1GS)⟩ race1GS
    (by decide) (by decide) (by decide)
  have herr := (h2.2 (by decide)).1 (by decide)
  exact ⟨hok.2, herr.2⟩

/-- C2 is false as stated: in the trace where player A's socket drops (arming
buffer timer 0), A rebinds through an explicit join, and the new socket then
drops, establishing the new grace timer does not replace or remove the prior
live timer for the key — both timers are live for ("G", "A") at once,
although exactly one was live just before the new one was established. -/
theorem grace_two_live_timers_for_key :
    (liveTimersForKey grace2 ("G", "A")).length = 1
    ∧ (liveTimersForKey grace3 ("G", "A")).length = 2 := by decide

/-- C2 (amended): establishing a grace timer on a disconnect event overwrites
the timeout-table entry for the (room, player) key — so the table keeps at
most one entry per key — but it cancels nothing: every previously live timer
for the key stays live alongside the newly appended one. -/
theorem disconnect_timer_overwrites_entry (s : EngineState) (sock : SocketWithSession)
    (g p : String) (hp : sock.playerId = some p) (hg : sock.gameCode = some g) :
    (handleDisconnect s sock).liveTimers
        = s.liveTimers ++ [(s.nextTimerId, .buffer g p sock.displayName)]
    ∧ (handleDisconnect s sock).disconnectTimeouts
        = alSet s.disconnectTimeouts (g, p) s.nextTimerId
    ∧ (∀ t ∈ s.liveTimers, t ∈ (handleDisconnect s sock).liveTimers) := by
  obtain ⟨sid, pid, gc, dn⟩ := sock
  simp only at hp hg
  subst hp
  subst hg
  refine ⟨rfl, rfl, ?_⟩
  intro t ht
  simp only [handleDisconnect, setTimeout]
  exact List.mem_append_left _ ht

theorem disconnect_timer_overwrites_entry_witness :
    (handleDisconnect grace2 sockA9).liveTimers
        = grace2.liveTimers ++ [(grace2.nextTimerId, .buffer "G" "A" sockA9.displayName)]
    ∧ (handleDisconnect grace2 sockA9).disconnectTimeouts
        = alSet grace2.disconnectTimeouts ("G", "A") grace2.nextTimerId :=
  ⟨(disconnect_timer_overwrites_entry grace2 sockA9 "G" "A" (by decide) (by decide)).1,
   (disconnect_timer_overwrites_entry grace2 sockA9 "G" "A" (by decide) (by decide)).2.1⟩

/-- C3 is false as stated: after player A rebinds through an explicit join
(before any removal timer fired), the live buffer timer for ("G", "A") is
neither cancelled nor its table entry deleted, and letting the uncancelled
timers fire produces a player-left broadcast for A. -/
theorem explicit_join_leaves_timer_live :
    liveTimersForKey grace2 ("G", "A") ≠ []
    ∧ alGet grace2.disconnectTimeouts ("G", "A") = some 0
    ∧ Msg.mk (.room "G") (.player_left "A") ∈ grace5.msgs := by decide

/-- C3 (amended): an implicit token-based auto-reconnect cancels the live
grace timer for the key and deletes the key's table entry, and the cancelled
timer can never fire again (firing a non-live timer is a no-op), so a
token-based reconnection before the removal timer fires never leads to a
player-left broadcast from that timer. -/
theorem token_rebind_cancels_grace_timer (s : EngineState) (sock : SocketWithSession)
    (p g dn : String) (room : Room) (tid : Nat)
    (hroom : getRoom s.rooms g = some room)
    (hmem : room.players.any (fun q => q.id == p) = true)
    (hent : alGet s.disconnectTimeouts (g, p) = some tid) :
    alGet (handleAutoReconnect s sock (some (p, g, dn))).1.disconnectTimeouts (g, p) = none
    ∧ ((handleAutoReconnect s sock (some (p, g, dn))).1.liveTimers.all
        (fun x => x.1 != tid)) = true
    ∧ (∀ s2 : EngineState, (s2.liveTimers.all (fun x => x.1 != tid)) = true →
        fireTimer s2 tid = s2) := by
  refine ⟨?_, ?_, fun s2 h2 => fireTimer_not_live s2 tid h2⟩
  · simp only [handleAutoReconnect, hroom, hmem, if_true, hent, clearTimeout]
    cases hg2 : getRoom (updateSocketId s.rooms g p sock.sid) g <;>
      simp [hg2, emit, alGet_alDelete_self]
  · simp only [handleAutoReconnect, hroom, hmem, if_true, hent, clearTimeout]
    cases hg2 : getRoom (updateSocketId s.rooms g p sock.sid) g <;>
      simp [hg2, emit, all_filter_self]

theorem token_rebind_cancels_grace_timer_witness :
    alGet (handleAutoReconnect grace1 sockFresh
        (some ("A", "G", "Alice"))).1.disconnectTimeouts ("G", "A") = none :=
  (token_rebind_cancels_grace_timer grace1 sockFresh "A" "G" "Alice" waitingRoom 0
    (by decide) (by decide) (by decide)).1

/-- C4 is false as stated: in the run where the host starts the game and the
countdown completes (cdown4), no "input phase open" event has been broadcast
for the current round, yet a whole-sequence submission arriving at that point
is accepted — it is validated and its result broadcast, and the engine state
changes. -/
theorem submission_accepted_before_input_phase :
    cdown4.msgs.all (fun m => !isInputPhaseMsg m) = true
    ∧ roomStatusOf cdown4 "G" = some .active
    ∧ cdown5.msgs = cdown4.msgs ++ [⟨.room "G", .simon_result "A" "Alice" true (genSeq 1)⟩]
    ∧ cdown5 ≠ cdown4 := by decide

/-- C4 (amended): the engine does not gate sequence-game submissions on the
"input phase open" broadcast: a whole-sequence submission is validated and
its result broadcast (and the follow-up timer armed) whenever the room is
active, the game state is the sequence game and the submitting player is
still playing, with no reference to whether the input-phase event was ever
emitted. -/
theorem submit_sequence_not_gated_on_input_phase
    (s : EngineState) (g p : String) (seq : List Color) (room : Room)
    (gs : SimonGameState) (ps : SimonPlayerState)
    (hroom : getRoom s.rooms g = some room)
    (hact : room.status = .active)
    (hgs : room.gameState = some (.simon gs))
    (hps : alGet gs.playerStates p = some ps)
    (hplay : ps.status = .playing) :
    simonSubmitSequence s g p seq =
      (if validateSequence gs seq then
        (setTimeout (emit s (.room g) (.simon_result p
            (((room.players.find? (fun q => q.id == p)).map (fun q => q.displayName)).getD
              "Unknown")
            true gs.sequence)) (.simonAdvance g)).1
      else
        (setTimeout (emit s (.room g) (.simon_result p
            (((room.players.find? (fun q => q.id == p)).map (fun q => q.displayName)).getD
              "Unknown")
            false gs.sequence)) (.simonEliminateFinish g p gs room)).1) := by
  simp only [simonSubmitSequence, hroom, hact, hgs, hps, hplay, beq_self_eq_true, if_true]
  by_cases hv : validateSequence gs seq = true
  · simp [hv]
  · simp only [Bool.not_eq_true] at hv
    simp [hv]

theorem submit_sequence_not_gated_on_input_phase_witness :
    simonSubmitSequence whole0 "G" "A" [Color.blue] =
      (setTimeout (emit whole0 (.room "G")
        (.simon_result "A" "Alice" false (genSeq 1))) (.simonEliminateFinish "G" "A" simonGS3
          simonRoom3)).1 := by
  have h := submit_sequence_not_gated_on_input_phase whole0 "G" "A" [Color.blue]
    simonRoom3 simonGS3 ⟨.playing, 0⟩ (by decide) (by decide) (by decide) (by decide)
    (by decide)
  simpa using h

/-- C5 is false as stated: in whole-sequence mode an incorrect submission is
followed (after the delay) by elimination and then unconditionally by the
game-finished broadcast and the finished status, even though the external
should-end predicate is false on the post-elimination state (two of three
players still playing). -/
theorem whole_sequence_finishes_without_predicate :
    shouldGameEnd (eliminatePlayer simonGS3 "A" 1) = false
    ∧ Msg.mk (.room "G") (.simon_game_finished "B" "Bob" 1) ∈ whole2.msgs
    ∧ roomStatusOf whole2 "G" = some .finished := by decide

/-- C5 (amended): in per-step mode the should-end predicate is consulted
after an elimination and the game-finished broadcast plus the finished status
occur exactly when it holds on the post-elimination state, a correct per-step
submission never ends the game, and in whole-sequence mode the delayed
incorrect-branch callback eliminates and then broadcasts game-finished and
sets the finished status unconditionally, without consulting the predicate. -/
theorem simon_end_of_game_evaluation
    (s : EngineState) (g p : String) (c : Color) (i : Nat) (room : Room)
    (gs : SimonGameState) (ps : SimonPlayerState)
    (hroom : getRoom s.rooms g = some room)
    (hact : room.status = .active)
    (hgs : room.gameState = some (.simon gs))
    (hps : alGet gs.playerStates p = some ps)
    (hplay : ps.status = .playing) :
    (validateInput gs p c i = false →
      (shouldGameEnd (eliminatePlayer gs p gs.round) = true →
        (simonSubmitInput s g p c i).msgs
          = s.msgs ++ [⟨.room g, .simon_player_eliminated p
              (((room.players.find? (fun q => q.id == p)).map
                  (fun q => q.displayName)).getD "Unknown") "wrong_color"⟩,
              ⟨.room g, .simon_game_finished
                ((getWinner (eliminatePlayer gs p gs.round)).getD "")
                ((((getWinner (eliminatePlayer gs p gs.round)).bind
                    (fun w => room.players.find? (fun q => q.id == w))).map
                  (fun q => q.displayName)).getD "No winner")
                (eliminatePlayer gs p gs.round).round⟩]
        ∧ roomStatusOf (simonSubmitInput s g p c i) g = some .finished)
      ∧ (shouldGameEnd (eliminatePlayer gs p gs.round) = false →
        (simonSubmitInput s g p c i).msgs
          = s.msgs ++ [⟨.room g, .simon_player_eliminated p
              (((room.players.find? (fun q => q.id == p)).map
                  (fun q => q.displayName)).getD "Unknown") "wrong_color"⟩]
        ∧ roomStatusOf (simonSubmitInput s g p c i) g = some .active))
    ∧ (validateInput gs p c i = true →
        ∃ tail : List Msg,
          (simonSubmitInput s g p c i).msgs
            = s.msgs ++ [⟨.room g, .simon_input_correct p i⟩] ++ tail
          ∧ tail.all (fun m => match m.ev with
              | .simon_game_finished _ _ _ => false
              | _ => true) = true
          ∧ roomStatusOf (simonSubmitInput s g p c i) g = some .active)
    ∧ (∀ s2 : EngineState,
        (runTimerKind s2 (.simonEliminateFinish g p gs room)).msgs
          = s2.msgs ++ [⟨.room g, .simon_game_finished
              ((getWinner (eliminatePlayer gs p gs.round)).getD "")
              ((((getWinner (eliminatePlayer gs p gs.round)).bind
                  (fun w => room.players.find? (fun q => q.id == w))).map
                (fun q => q.displayName)).getD "No winner")
              (eliminatePlayer gs p gs.round).round⟩]
        ∧ roomStatusOf (runTimerKind s2 (.simonEliminateFinish g p gs room)) g
          = (getRoom s2.rooms g).map (fun _ => .finished)) := by
  refine ⟨?_, ?_, ?_⟩
  · intro hv
    constructor
    · intro hend
      simp only [simonSubmitInput, hroom, hact, hgs, hps, hplay, hv, hend,
        beq_self_eq_true, if_true, Bool.not_false, finishSimonGame, emit, roomStatusOf]
      constructor
      · simp [List.append_assoc]
      · simp [getRoom_updateRoomStatus, getRoom_updateGameState, hroom]
    · intro hend
      simp only [simonSubmitInput, hroom, hact, hgs, hps, hplay, hv, hend,
        beq_self_eq_true, if_true, Bool.not_false, emit, roomStatusOf]
      constructor
      · simp
      · simp [getRoom_updateGameState, hroom, hact]
  · intro hv
    simp only [simonSubmitInput, hroom, hact, hgs, hps, hplay, hv,
      beq_self_eq_true, if_true, Bool.not_true, emit]
    cases hup : alGet (updatePlayerProgress gs p).playerStates p with
    | none =>
      refine ⟨[], ?_⟩
      simp [hup, roomStatusOf, getRoom_updateGameState, hroom, hact]
    | some ups =>
      by_cases hcomp : ups.currentInputIndex ≥ (updatePlayerProgress gs p).sequence.length
      · by_cases hall : ((updatePlayerProgress gs p).playerStates.all (fun kv =>
            kv.2.status != .playing ||
              decide (kv.2.currentInputIndex ≥ (updatePlayerProgress gs p).sequence.length)))
            = true
        · refine ⟨[], ?_⟩
          simp [hup, hcomp, hall, setTimeout, roomStatusOf, getRoom_updateGameState, hroom,
            hact]
        · refine ⟨[], ?_⟩
          simp only [Bool.not_eq_true] at hall
          simp [hup, hcomp, hall, roomStatusOf, getRoom_updateGameState, hroom, hact]
      · refine ⟨[], ?_⟩
        simp [hup, hcomp, roomStatusOf, getRoom_updateGameState, hroom, hact]
  · intro s2
    simp only [runTimerKind, finishSimonGame, emit, roomStatusOf]
    constructor
    · trivial
    · simp only [getRoom_updateRoomStatus, getRoom_updateGameState]
      cases hg2 : getRoom s2.rooms g <;> simp [hg2]

theorem simon_end_of_game_evaluation_witness :
    (simonSubmitInput step2 "G" "A" Color.blue 2).msgs
      = step2.msgs ++ [⟨.room "G", .simon_player_eliminated "A" "Alice" "wrong_color"⟩,
          ⟨.room "G", .simon_game_finished "B" "Bob" 2⟩] := by
  have h := simon_end_of_game_evaluation step2 "G" "A" Color.blue 2
    ⟨"G", .active, [pA, pB],
      some (.simon ⟨2, genSeq 2, [("A", ⟨.playing, 2⟩), ("B", ⟨.playing, 0⟩)]⟩)⟩
    ⟨2, genSeq 2, [("A", ⟨.playing, 2⟩), ("B", ⟨.playing, 0⟩)]⟩ ⟨.playing, 2⟩
    (by decide) (by decide) (by decide) (by decide) (by decide)
  have h2 := (h.1 (by decide)).1 (by decide)
  simpa using h2.1

/-- C6 is false as stated: player A completes round 2 (progress pointer 2 =
sequence length, still playing after step2), yet a further same-round
submission is processed, judged incorrect by the step validator, and A is
eliminated with a wrong_color broadcast. -/
theorem completed_player_eliminated_by_further_submission :
    ((simonStateOf step2 "G").bind (fun gs => alGet gs.playerStates "A"))
        = some ⟨.playing, 2⟩
    ∧ (simonStateOf step2 "G").map (fun gs => gs.sequence.length) = some 2
    ∧ ((simonStateOf step3 "G").bind (fun gs => alGet gs.playerStates "A"))
        = some ⟨.eliminated, 2⟩
    ∧ Msg.mk (.room "G") (.simon_player_eliminated "A" "Alice" "wrong_color") ∈ step3.msgs :=
  by decide

/-- C6 (amended): the per-step handler has no completion guard — a further
same-round submission by a player whose progress pointer has reached the
sequence length is validated like any other step, the validator finds no
sequence element at the pointer and judges it incorrect, and the player is
eliminated with a wrong_color broadcast. -/
theorem completed_player_further_submission_eliminates
    (s : EngineState) (g p : String) (c : Color) (i : Nat) (room : Room)
    (gs : SimonGameState) (ps : SimonPlayerState)
    (hroom : getRoom s.rooms g = some room)
    (hact : room.status = .active)
    (hgs : room.gameState = some (.simon gs))
    (hps : alGet gs.playerStates p = some ps)
    (hplay : ps.status = .playing)
    (hdone : gs.sequence.length ≤ ps.currentInputIndex) :
    validateInput gs p c i = false
    ∧ alGet (eliminatePlayer gs p gs.round).playerStates p
        = some ⟨.eliminated, ps.currentInputIndex⟩
    ∧ Msg.mk (.room g) (.simon_player_eliminated p
        (((room.players.find? (fun q => q.id == p)).map (fun q => q.displayName)).getD
          "Unknown") "wrong_color")
      ∈ (simonSubmitInput s g p c i).msgs := by
  have hv : validateInput gs p c i = false := by
    have hnone : gs.sequence.get? ps.currentInputIndex = none := by
      rw [List.get?_eq_none]
      exact hdone
    rw [List.get?_eq_getElem?] at hnone
    simp only [validateInput, hps]
    simp [hnone]
  refine ⟨hv, ?_, ?_⟩
  · simp [eliminatePlayer, alGet_alAdjust_self, hps]
  · simp only [simonSubmitInput, hroom, hact, hgs, hps, hplay, hv,
      beq_self_eq_true, if_true, Bool.not_false, if_true, emit]
    by_cases hend : shouldGameEnd (eliminatePlayer gs p gs.round) = true
    · simp [hend, finishSimonGame, emit]
    · simp only [Bool.not_eq_true] at hend
      simp [hend]

theorem completed_player_further_submission_eliminates_witness :
    validateInput ⟨2, genSeq 2, [("A", ⟨.playing, 2⟩), ("B", ⟨.playing, 0⟩)]⟩
        "A" Color.blue 2 = false
    ∧ Msg.mk (.room "G") (.simon_player_eliminated "A" "Alice" "wrong_color")
        ∈ (simonSubmitInput step2 "G" "A" Color.blue 2).msgs := by
  have h := completed_player_further_submission_eliminates step2 "G" "A" Color.blue 2
    ⟨"G", .active, [pA, pB],
      some (.simon ⟨2, genSeq 2, [("A", ⟨.playing, 2⟩), ("B", ⟨.playing, 0⟩)]⟩)⟩
    ⟨2, genSeq 2, [("A", ⟨.playing, 2⟩), ("B", ⟨.playing, 0⟩)]⟩ ⟨.playing, 2⟩
    (by decide) (by decide) (by decide) (by decide) (by decide) (by decide)
  exact ⟨h.1, by simpa using h.2.2⟩

/-- C7 is false as stated: the delayed incorrect-branch callback of the
whole-sequence handler does not re-validate its preconditions — after both
players leave and the room is gone, firing it still broadcasts a
game-finished event built from the state it captured at schedule time,
instead of degrading to a no-op. -/
theorem stale_callback_acts_after_room_gone :
    getRoom stale3.rooms "G" = none
    ∧ stale4.msgs = stale3.msgs ++ [⟨.room "G", .simon_game_finished "B" "Bob" 1⟩] :=
  by decide

/-- C7 (amended): the round-advance callback of the sequence game re-fetches
the room and degrades to a no-op when the room is gone, its status changed,
or the game variant no longer matches, and the race-game next-round callback
re-fetches and degrades to a no-op when the room is gone or not active; but
the delayed eliminate-and-finish callback of the whole-sequence incorrect
branch acts on schedule-time state unconditionally — it always emits, in any
engine state. -/
theorem timer_callback_revalidation (s : EngineState) (g : String) :
    (getRoom s.rooms g = none → runTimerKind s (.simonAdvance g) = s)
    ∧ (∀ room, getRoom s.rooms g = some room → room.status ≠ .active →
        runTimerKind s (.simonAdvance g) = s)
    ∧ (∀ room cs, getRoom s.rooms g = some room → room.gameState = some (.color_race cs) →
        runTimerKind s (.simonAdvance g) = s)
    ∧ (∀ captured, getRoom s.rooms g = none →
        runTimerKind s (.colorNextRound g captured) = s)
    ∧ (∀ room captured, getRoom s.rooms g = some room → room.status ≠ .active →
        runTimerKind s (.colorNextRound g captured) = s)
    ∧ (∀ p cs room2, (runTimerKind s (.simonEliminateFinish g p cs room2)).msgs ≠ s.msgs) := by
  refine ⟨?_, ?_, ?_, ?_, ?_, ?_⟩
  · intro h
    simp [runTimerKind, advanceSimonRound, h]
  · intro room h hne
    simp [runTimerKind, advanceSimonRound, h, hne]
  · intro room cs h hcs
    by_cases hst : room.status = .active
    · simp [runTimerKind, advanceSimonRound, h, hst, hcs]
    · simp [runTimerKind, advanceSimonRound, h, hst]
  · intro captured h
    simp [runTimerKind, h]
  · intro room captured h hne
    simp [runTimerKind, h, hne]
  · intro p cs room2 heq
    have hlen := congrArg List.length heq
    simp [runTimerKind, finishSimonGame, emit] at hlen

theorem timer_callback_revalidation_witness :
    runTimerKind stale3 (.simonAdvance "G") = stale3
    ∧ (runTimerKind stale3 (.simonEliminateFinish "G" "A" simonGS2r1 staleRoom)).msgs
        ≠ stale3.msgs :=
  ⟨(timer_callback_revalidation stale3 "G").1 (by decide),
   (timer_callback_revalidation stale3 "G").2.2.2.2.2 "A" simonGS2r1 staleRoom⟩

/-- C8: starting a game — when the room is absent, the requester is not the
host (or not a member), or the status is not waiting, only an error notice to
the requesting connection is sent and nothing else changes; when the host of
a waiting room starts it (with no other timer pending in the engine), the
status becomes countdown, no message is sent yet, and running the four
interval steps emits the countdown ticks 3, 2, 1, 0 in order, after which
the room status is active and the game state has been initialized by the
external initializer and persisted. -/
theorem start_game_countdown (s : EngineState) (sock : SocketWithSession) (g p : String) :
    (getRoom s.rooms g = none →
      startGame s sock g p = emit s (.socket sock.sid) (.errorNotice "Room not found"))
    ∧ (∀ room, getRoom s.rooms g = some room →
        room.players.find? (fun q => q.id == p) = none →
        startGame s sock g p
          = emit s (.socket sock.sid) (.errorNotice "Only host can start the game"))
    ∧ (∀ room player, getRoom s.rooms g = some room →
        room.players.find? (fun q => q.id == p) = some player → player.isHost = false →
        startGame s sock g p
          = emit s (.socket sock.sid) (.errorNotice "Only host can start the game"))
    ∧ (∀ room player, getRoom s.rooms g = some room →
        room.players.find? (fun q => q.id == p) = some player → player.isHost = true →
        room.status ≠ .waiting →
        startGame s sock g p
          = emit s (.socket sock.sid) (.errorNotice "Game already started"))
    ∧ (∀ room player, getRoom s.rooms g = some room →
        room.players.find? (fun q => q.id == p) = some player → player.isHost = true →
        room.status = .waiting → s.liveTimers = [] →
        roomStatusOf (startGame s sock g p) g = some .countdown
        ∧ (startGame s sock g p).msgs = s.msgs
        ∧ (fireTimer (fireTimer (fireTimer (fireTimer (startGame s sock g p) s.nextTimerId)
              (s.nextTimerId + 1)) (s.nextTimerId + 2)) (s.nextTimerId + 3)).msgs
            = s.msgs ++ [⟨.room g, .countdown 3⟩, ⟨.room g, .countdown 2⟩,
                ⟨.room g, .countdown 1⟩, ⟨.room g, .countdown 0⟩]
        ∧ getRoom (fireTimer (fireTimer (fireTimer (fireTimer (startGame s sock g p)
              s.nextTimerId) (s.nextTimerId + 1)) (s.nextTimerId + 2))
              (s.nextTimerId + 3)).rooms g
            = some { room with
                status := .active
                gameState := some (.simon (initializeSimonGame room.players)) }) := by
  refine ⟨?_, ?_, ?_, ?_, ?_⟩
  · intro h
    simp [startGame, h]
  · intro room hroom hfind
    simp [startGame, hroom, hfind]
  · intro room player hroom hfind hhost
    simp [startGame, hroom, hfind, hhost]
  · intro room player hroom hfind hhost hne
    simp [startGame, hroom, hfind, hhost, hne]
  · intro room player hroom hfind hhost hwait hlt
    refine ⟨?_, ?_, ?_, ?_⟩
    · simp [startGame, hroom, hfind, hhost, hwait, startCountdown, setTimeout, roomStatusOf,
        getRoom_updateRoomStatus]
    · simp [startGame, hroom, hfind, hhost, hwait, startCountdown, setTimeout]
    · simp [startGame, hroom, hfind, hhost, hwait, startCountdown, setTimeout, hlt,
        fireTimer, runTimerKind, emit, List.find?, getRoom_updateRoomStatus,
        getRoom_updateGameState]
    · simp [startGame, hroom, hfind, hhost, hwait, startCountdown, setTimeout, hlt,
        fireTimer, runTimerKind, emit, List.find?, getRoom_updateRoomStatus,
        getRoom_updateGameState]

theorem start_game_countdown_witness :
    roomStatusOf cdown0 "G" = some .countdown
    ∧ cdown4.msgs = [⟨.room "G", .countdown 3⟩, ⟨.room "G", .countdown 2⟩,
        ⟨.room "G", .countdown 1⟩, ⟨.room "G", .countdown 0⟩]
    ∧ getRoom cdown4.rooms "G"
        = some { waitingRoom with
            status := .active
            gameState := some (.simon (initializeSimonGame waitingRoom.players)) } := by
  have h := (start_game_countdown (mkEngine [waitingRoom]) sockA "G" "A").2.2.2.2
    waitingRoom pA (by decide) (by decide) (by decide) (by decide) (by decide)
  exact ⟨h.1, by simpa using h.2.2.1, by simpa using h.2.2.2⟩

end SimonApp
